import Mathlib

set_option maxHeartbeats 1000000
set_option maxRecDepth 4000

/-!
Shallow embedding of `src/app.py` (the studdybuddy backend).

The external collaborators of the code — the Supabase object store, the
Gemini generation client, and the PDF/DOCX/PPTX parsing libraries — are
modelled as oracles: functions passed in as parameters, each returning
`Except String _` so that any of them can raise an exception.  All logic
that lives in the file itself (suffix dispatch, per-path corpus
accumulation, whitespace collapsing, prompt construction, the request
handler's branching and its top-level `try/except`) is translated
directly from the source.
-/

/-- Python's ASCII whitespace class: the characters matched by the regex
class `\s` and stripped by `str.strip()`. -/
def isSpace (c : Char) : Bool :=
  c == ' ' || c == '\t' || c == '\n' || c == '\r' || c == '\x0b' || c == '\x0c'

/-- The substitution `re.sub(r'\s+', ' ', s)` (line 78): every maximal run
of whitespace characters is replaced by a single space. -/
def collapseRuns : List Char → List Char
  | [] => []
  | [c] => [if isSpace c then ' ' else c]
  | c :: b :: t =>
    if isSpace c then
      if isSpace b then collapseRuns (b :: t)
      else ' ' :: collapseRuns (b :: t)
    else c :: collapseRuns (b :: t)

/-- Remove trailing Python whitespace (the right half of `str.strip()`). -/
def rstripL : List Char → List Char
  | [] => []
  | c :: cs =>
    let r := rstripL cs
    if r.isEmpty then (if isSpace c then [] else [c]) else c :: r

/-- Python `s.strip()` on a character list: drop leading whitespace, then
trailing whitespace. -/
def stripL (l : List Char) : List Char :=
  rstripL (l.dropWhile isSpace)

/-- Python `s.strip()`. -/
def pyStrip (s : String) : String :=
  String.mk (stripL s.data)

/-- The corpus normalization `re.sub(r'\s+', ' ', all_text).strip()`
(line 78). -/
def collapse_ws (s : String) : String :=
  String.mk (stripL (collapseRuns s.data))

/-- Whether `pat` is a leading block of `l`. -/
def startsWithL : List Char → List Char → Bool
  | [], _ => true
  | _ :: _, [] => false
  | p :: ps, c :: cs => p == c && startsWithL ps cs

/-- Whether `pat` occurs contiguously somewhere in the list (the Python
substring test). -/
def containsL (pat : List Char) : List Char → Bool
  | [] => startsWithL pat []
  | c :: cs => startsWithL pat (c :: cs) || containsL pat cs

/-- Python substring test `pat in s`. -/
def strContains (s pat : String) : Bool :=
  containsL pat.data s.data

/-- Python `s.endswith(suffix)` (lines 58-62). -/
def pyEndswith (s suffix : String) : Bool :=
  startsWithL suffix.data.reverse s.data.reverse

/-- The extension part `os.path.splitext(path)[1]`: the last dot-suffix of
the basename, unless the only dots of the basename are leading ones. -/
def splitextExt (path : String) : String :=
  let base := (path.data.reverse.takeWhile (fun c => !(c == '/'))).reverse
  let stripped := base.dropWhile (fun c => c == '.')
  if stripped.contains '.' then
    String.mk ('.' :: (base.reverse.takeWhile (fun c => !(c == '.'))).reverse)
  else ""

/-- The expression `os.path.splitext(path)[1].lower()` (line 69). -/
def splitextLower (path : String) : String :=
  String.mk ((splitextExt path).data.map Char.toLower)

/-- A value of the JSON field `question_count` as delivered by
`request.get_json()`: either already an integer, or a string that
`int(...)` must convert (possibly failing). -/
inductive PyVal where
  | pint (n : Int)
  | pstr (s : String)
deriving DecidableEq

/-- Parse a nonempty all-digit character list (the numeral part of
Python's `int(str)`). -/
def parseDigits (l : List Char) : Option Nat :=
  if l.isEmpty then none
  else if l.all Char.isDigit then
    some (l.foldl (fun acc c => acc * 10 + (c.toNat - 48)) 0)
  else none

/-- Python `int(x)` (line 118) for the modelled value shapes: integers
pass through unchanged; strings are stripped and parsed as an optionally
signed decimal numeral, raising `ValueError` otherwise. -/
def pyInt : PyVal → Except String Int
  | .pint n => .ok n
  | .pstr s =>
    match (pyStrip s).data with
    | '-' :: rest =>
      match parseDigits rest with
      | some m => .ok (-(m : Int))
      | none => .error "invalid literal for int()"
    | '+' :: rest =>
      match parseDigits rest with
      | some m => .ok (m : Int)
      | none => .error "invalid literal for int()"
    | l =>
      match parseDigits l with
      | some m => .ok (m : Int)
      | none => .error "invalid literal for int()"

/-- Raw downloaded file contents. -/
abbrev Bytes := List Nat

/-- The Supabase storage client:
`supabase.storage.from_(bucket).download(path)` (line 70). -/
structure Storage where
  download : String → String → Except String Bytes

/-- The format-specific extraction libraries (`fitz`, `docx2txt`, `pptx`),
as oracles from materialized file contents to extracted text; each one may
raise a parse error. -/
structure Extractors where
  pdf : Bytes → Except String String
  docx : Bytes → Except String String
  pptx : Bytes → Except String String

/-- The Gemini client call `model.generate_content([prompt]).text`
(lines 106-108); may raise a service error. -/
abbrev GenModel := String → Except String String

/-- `extract_text(file_path)` (lines 57-64): dispatch on the file-name
suffix; `contents` are the bytes materialized at that path.  Unknown
suffixes yield the empty string without consulting any parser. -/
def extract_text (ex : Extractors) (file_path : String) (contents : Bytes) : Except String String :=
  if pyEndswith file_path ".pdf" then ex.pdf contents
  else if pyEndswith file_path ".docx" then ex.docx contents
  else if pyEndswith file_path ".pptx" then ex.pptx contents
  else .ok ""

/-- The body of the loop in `extract_text_from_supabase_paths` for one
path (lines 69-74): download from the fixed bucket `"materials"`,
materialize to a temporary file whose name carries the path's lowercased
extension, and extract. -/
def extract_one_path (st : Storage) (ex : Extractors) (tmpName : String → String) (path : String) : Except String String :=
  match st.download "materials" path with
  | .error e => .error e
  | .ok file_bytes => extract_text ex (tmpName (splitextLower path)) file_bytes

/-- The accumulation loop of `extract_text_from_supabase_paths`
(lines 66-78): append each extracted text plus a newline to the
accumulator, in the order of the given paths, then collapse whitespace. -/
def extract_loop (st : Storage) (ex : Extractors) (tmpName : String → String) : List String → String → Except String String
  | [], all_text => .ok (collapse_ws all_text)
  | path :: rest, all_text =>
    match extract_one_path st ex tmpName path with
    | .error e => .error e
    | .ok extracted => extract_loop st ex tmpName rest (all_text ++ extracted ++ "\n")

/-- `extract_text_from_supabase_paths(file_paths)` (lines 66-78). -/
def extract_text_from_supabase_paths (st : Storage) (ex : Extractors) (tmpName : String → String) (file_paths : List String) : Except String String :=
  extract_loop st ex tmpName file_paths ""

/-- The summary prompt (line 82). -/
def summary_prompt (text : String) : String :=
  "Please summarize the following content clearly and concisely:\n" ++ text

/-- The fixed part of the quiz prompt (lines 84-93), before the corpus
text. -/
def quiz_prompt_header (count : Int) (difficulty : String) : String :=
  "\n        Create " ++ toString count ++ " " ++ difficulty ++
    "-level multiple-choice questions based on the text below.\n        Each should have 4 options (A, B, C, D) with one correct answer. Return JSON array:\n        [\n          \x7b\n            \"question\": \"...\",\n            \"options\": [\"A\", \"B\", \"C\", \"D\"],\n            \"correct_answer\": 1\n          \x7d\n        ]\nText:\n"

/-- The quiz prompt (lines 84-93). -/
def quiz_prompt (count : Int) (difficulty text : String) : String :=
  quiz_prompt_header count difficulty ++ text

/-- The fixed part of the flashcards prompt (lines 95-102), before the
corpus text. -/
def flashcards_prompt_header (count : Int) : String :=
  "\n        Create " ++ toString count ++
    " flashcards from the following text in JSON format:\n        [\n          \x7b\n            \"front\": \"Term or Question\",\n            \"back\": \"Answer or Explanation\"\n          \x7d\n        ]\nText:\n"

/-- The flashcards prompt (lines 95-102). -/
def flashcards_prompt (count : Int) (text : String) : String :=
  flashcards_prompt_header count ++ text

/-- Prompt selection in `generate_ai_response` (lines 81-104): `none` for
an unknown task. -/
def prompt_for (task text : String) (count : Int) (difficulty : String) : Option String :=
  if task = "summary" then some (summary_prompt text)
  else if task = "quiz" then some (quiz_prompt count difficulty text)
  else if task = "flashcards" then some (flashcards_prompt count text)
  else none

/-- `generate_ai_response(task, text, count, difficulty)` (lines 80-108);
the Python defaults `count=5, difficulty="medium"` are supplied explicitly
at each call site.  Returns the model's raw text (`none` for an unknown
task, which is returned before any model call) paired with the list of
prompts actually sent to the generation client. -/
def generate_ai_response (gen : GenModel) (task text : String) (count : Int) (difficulty : String) : Except String (Option String × List String) :=
  match prompt_for task text count difficulty with
  | none => .ok (none, [])
  | some prompt =>
    match gen prompt with
    | .error e => .error e
    | .ok r => .ok (some r, [prompt])

/-- JSON values, rich enough for the `jsonify` payload shapes of the two
response paths. -/
inductive JVal where
  | jnull
  | jbool (b : Bool)
  | jstr (s : String)
  | jobj (fields : List (String × JVal))

/-- Top-level keys of a JSON object, in order. -/
def fieldKeys : JVal → List String
  | .jobj fields => fields.map Prod.fst
  | _ => []

/-- Python-to-JSON conversion of an optional string (`None` becomes
`null`). -/
def optJ : Option String → JVal
  | some s => JVal.jstr s
  | none => JVal.jnull

/-- The success payload (lines 125-129 and 143-147): field order as in the
dict literals of the source. -/
def successBody (project_name : String) (results : List (String × Option String)) : JVal :=
  JVal.jobj [("success", JVal.jbool true),
             ("project_name", JVal.jstr project_name),
             ("results", JVal.jobj (results.map (fun kv => (kv.1, optJ kv.2))))]

/-- The failure payload (line 151). -/
def failureBody : JVal :=
  JVal.jobj [("success", JVal.jbool false), ("error", JVal.jstr "Processing failed")]

/-- The parsed request body, with the `data.get` defaults (lines 114-119)
already applied to missing fields. -/
structure GenRequest where
  file_paths : List String := []
  actions : List String := []
  project_name : String := "Untitled Project"
  question_count : PyVal := PyVal.pint 5
  difficulty : String := "medium"

/-- One of the three `if action in actions:` blocks (lines 133-138): when
the action was requested, generate and record the raw model text under the
task's key, extending the trace of prompts sent. -/
def runAction (gen : GenModel) (cond : Bool) (task text : String) (count : Int) (difficulty : String) (acc : List (String × Option String) × List String) : Except String (List (String × Option String) × List String) :=
  if cond then
    match generate_ai_response gen task text count difficulty with
    | .error e => .error e
    | .ok rp => .ok (acc.1 ++ [(task, rp.1)], acc.2 ++ rp.2)
  else .ok acc

/-- The `try:` body of the request handler (lines 113-147): convert
`question_count` with `int(...)`, build the corpus, short-circuit on an
empty corpus, otherwise run the requested actions in the fixed order
summary, quiz, flashcards. -/
def handlerBody (st : Storage) (ex : Extractors) (tmpName : String → String) (gen : GenModel) (data : GenRequest) : Except String (JVal × List String) :=
  match pyInt data.question_count with
  | .error e => .error e
  | .ok question_count =>
    match extract_text_from_supabase_paths st ex tmpName data.file_paths with
    | .error e => .error e
    | .ok text =>
      if pyStrip text = "" then .ok (successBody data.project_name [], [])
      else
        match runAction gen (data.actions.contains "summary") "summary" text 5 "medium" ([], []) with
        | .error e => .error e
        | .ok acc1 =>
          match runAction gen (data.actions.contains "quiz") "quiz" text question_count data.difficulty acc1 with
          | .error e => .error e
          | .ok acc2 =>
            match runAction gen (data.actions.contains "flashcards") "flashcards" text 5 "medium" acc2 with
            | .error e => .error e
            | .ok acc3 => .ok (successBody data.project_name acc3.1, acc3.2)

/-- The endpoint `POST /generate-learning-content` (lines 111-151): HTTP
status code and JSON body, paired with the trace of prompts sent to the
generation client.  Any exception of the body is caught and collapsed into
the generic 500 failure response. -/
def generate_learning_content (st : Storage) (ex : Extractors) (tmpName : String → String) (gen : GenModel) (data : GenRequest) : (Nat × JVal) × List String :=
  match handlerBody st ex tmpName gen data with
  | .ok bp => ((200, bp.1), bp.2)
  | .error _ => ((500, failureBody), [])

/-- Decode a string into bytes (test fixture). -/
def bytesOf (s : String) : Bytes := s.data.map Char.toNat

/-- Decode bytes back into a string (test fixture). -/
def strOfBytes (b : Bytes) : String := String.mk (b.map Char.ofNat)

/-- Demo object store: every download succeeds, returning the path's own
bytes. -/
def stDemo : Storage := ⟨fun _bucket path => .ok (bytesOf path)⟩

/-- Demo parsers: always succeed and tag the decoded bytes with the format
name, so each file's contribution to the corpus is distinguishable. -/
def exDemo : Extractors :=
  ⟨fun b => .ok ("PDF:" ++ strOfBytes b),
   fun b => .ok ("DOCX:" ++ strOfBytes b),
   fun b => .ok ("PPTX:" ++ strOfBytes b)⟩

/-- Demo temporary-file naming: a fixed stem plus the requested suffix. -/
def tmpDemo (ext : String) : String := "/tmp/tmp00" ++ ext

/-- Demo generation client that always succeeds. -/
def genDemo : GenModel := fun _prompt => .ok "GEN"

/-- Demo generation client that always raises. -/
def genFail : GenModel := fun _prompt => .error "quota exhausted"

/-- A request with all defaults (empty `file_paths`). -/
def reqEmpty : GenRequest :=
  GenRequest.mk [] [] "Untitled Project" (PyVal.pint 5) "medium"

/-- A request for a summary of one PDF. -/
def reqSummary : GenRequest :=
  GenRequest.mk ["a.pdf"] ["summary"] "Untitled Project" (PyVal.pint 5) "medium"

/-- A request for flashcards with `question_count = 7`. -/
def reqFlash7 : GenRequest :=
  GenRequest.mk ["a.pdf"] ["flashcards"] "P" (PyVal.pint 7) "medium"

/-- A request for a quiz with a negative `question_count` and an
out-of-domain difficulty string. -/
def reqQuizNeg : GenRequest :=
  GenRequest.mk ["a.pdf"] ["quiz"] "P" (PyVal.pint (-2)) "weird"

/-- A request whose `question_count` cannot be converted by `int(...)`. -/
def reqBadCount : GenRequest :=
  GenRequest.mk [] [] "P" (PyVal.pstr "abc") "medium"

/-- Expected per-path extraction results for the two-file demo. -/
def fDemo : String → String :=
  fun p => if p = "a.pdf" then "PDF:a.pdf" else "DOCX:b.docx"

/-! ### Generic lemmas about the string utilities -/

theorem strData_append (s t : String) : (s ++ t).data = s.data ++ t.data := rfl

theorem startsWithL_self_append (p t : List Char) : startsWithL p (p ++ t) = true := by
  induction p with
  | nil => rfl
  | cons c cs ih => simp [startsWithL, ih]

theorem startsWithL_extend (p : List Char) : ∀ (l t : List Char), startsWithL p l = true → startsWithL p (l ++ t) = true := by
  induction p with
  | nil => intro l t _; rfl
  | cons c cs ih =>
    intro l t h
    cases l with
    | nil => simp [startsWithL] at h
    | cons a as =>
      simp [startsWithL] at h
      simp [startsWithL, h.1, ih as t h.2]

theorem containsL_nil_pat (l : List Char) : containsL [] l = true := by
  cases l with
  | nil => rfl
  | cons c cs => simp [containsL, startsWithL]

theorem containsL_extend (p : List Char) : ∀ (l t : List Char), containsL p l = true → containsL p (l ++ t) = true := by
  intro l
  induction l with
  | nil =>
    intro t h
    cases p with
    | nil => simpa using containsL_nil_pat t
    | cons a as => simp [containsL, startsWithL] at h
  | cons c cs ih =>
    intro t h
    simp only [containsL, Bool.or_eq_true] at h
    rcases h with h | h
    · simp only [List.cons_append, containsL, Bool.or_eq_true]
      exact Or.inl (startsWithL_extend p (c :: cs) t h)
    · simp only [List.cons_append, containsL, Bool.or_eq_true]
      exact Or.inr (ih t h)

theorem containsL_middle (p : List Char) : ∀ (a b : List Char), containsL p (a ++ (p ++ b)) = true := by
  intro a
  induction a with
  | nil =>
    intro b
    simp only [List.nil_append]
    cases hp : p ++ b with
    | nil =>
      have : p = [] := by
        cases p with
        | nil => rfl
        | cons x xs => simp at hp
      simp [this, containsL_nil_pat]
    | cons y ys =>
      simp only [containsL, Bool.or_eq_true]
      exact Or.inl (hp ▸ startsWithL_self_append p b)
  | cons c cs ih =>
    intro b
    simp only [List.cons_append, containsL, Bool.or_eq_true]
    exact Or.inr (ih b)

/-- Claim C7: the quiz prompt built with `count = 3` and
`difficulty = "hard"` contains both the substring `"3"` and the substring
`"hard"`, for every corpus text. -/
theorem c7_quiz_prompt_embeds_count_and_difficulty (text : String) :
    strContains (quiz_prompt 3 "hard" text) "3" = true ∧
    strContains (quiz_prompt 3 "hard" text) "hard" = true := by
  constructor
  · show containsL "3".data (quiz_prompt_header 3 "hard" ++ text).data = true
    rw [strData_append]
    exact containsL_extend _ _ _ (by decide)
  · show containsL "hard".data (quiz_prompt_header 3 "hard" ++ text).data = true
    rw [strData_append]
    exact containsL_extend _ _ _ (by decide)

/-! ### Normal-form lemmas for the whitespace collapse (claim C8) -/

/-- Every character of the list that is whitespace is a plain space. -/
def allWsSp : List Char → Bool
  | [] => true
  | c :: t => (!(isSpace c) || c == ' ') && allWsSp t

/-- No two adjacent characters are both whitespace. -/
def noAdj : List Char → Bool
  | [] => true
  | [_] => true
  | a :: b :: t => !(isSpace a && isSpace b) && noAdj (b :: t)

/-- The first character, if any, is not whitespace. -/
def noLeadWs : List Char → Bool
  | [] => true
  | c :: _ => !(isSpace c)

/-- The last character, if any, is not whitespace. -/
def noTrailWs : List Char → Bool
  | [] => true
  | [c] => !(isSpace c)
  | _ :: b :: t => noTrailWs (b :: t)

theorem collapseRuns_one (c : Char) :
    collapseRuns [c] = [if isSpace c then ' ' else c] := rfl

theorem collapseRuns_cons2 (c b : Char) (t : List Char) :
    collapseRuns (c :: b :: t) =
      if isSpace c then
        (if isSpace b then collapseRuns (b :: t) else ' ' :: collapseRuns (b :: t))
      else c :: collapseRuns (b :: t) := rfl

theorem allWsSp_cons (c : Char) (t : List Char) :
    allWsSp (c :: t) = ((!(isSpace c) || c == ' ') && allWsSp t) := rfl

theorem noAdj_cons2 (a b : Char) (t : List Char) :
    noAdj (a :: b :: t) = (!(isSpace a && isSpace b) && noAdj (b :: t)) := rfl

theorem eq_space_of_wsSp {c : Char} (hc : isSpace c = true)
    (h : (!(isSpace c) || c == ' ') = true) : c = ' ' := by
  rw [hc] at h
  simpa using h

theorem collapseRuns_cons_head : ∀ (l : List Char) (c : Char), ∃ y ys,
    collapseRuns (c :: l) = y :: ys ∧ isSpace y = isSpace c ∧ (isSpace c = true → y = ' ') := by
  intro l
  induction l with
  | nil =>
    intro c
    by_cases h : isSpace c = true
    · refine ⟨' ', [], ?_, ?_, fun _ => rfl⟩
      · rw [collapseRuns_one, if_pos h]
      · rw [h]; decide
    · exact ⟨c, [], by rw [collapseRuns_one, if_neg h], rfl, fun hx => absurd hx h⟩
  | cons b t ih =>
    intro c
    by_cases hc : isSpace c = true
    · by_cases hb : isSpace b = true
      · obtain ⟨y, ys, hy, hsp, hch⟩ := ih b
        refine ⟨y, ys, ?_, ?_, fun _ => hch hb⟩
        · rw [collapseRuns_cons2, if_pos hc, if_pos hb, hy]
        · rw [hsp, hb, hc]
      · refine ⟨' ', collapseRuns (b :: t), ?_, ?_, fun _ => rfl⟩
        · rw [collapseRuns_cons2, if_pos hc, if_neg hb]
        · rw [hc]; decide
    · exact ⟨c, collapseRuns (b :: t), by rw [collapseRuns_cons2, if_neg hc], rfl,
        fun hx => absurd hx hc⟩

theorem allWsSp_collapseRuns : ∀ l, allWsSp (collapseRuns l) = true := by
  intro l
  induction l with
  | nil => rfl
  | cons c t ih =>
    cases t with
    | nil =>
      rw [collapseRuns_one]
      by_cases h : isSpace c = true
      · rw [if_pos h]; decide
      · have hcf : isSpace c = false := by simpa using h
        rw [if_neg h, allWsSp_cons, hcf]
        rfl
    | cons b t2 =>
      rw [collapseRuns_cons2]
      by_cases hc : isSpace c = true
      · rw [if_pos hc]
        by_cases hb : isSpace b = true
        · rw [if_pos hb]; exact ih
        · rw [if_neg hb, allWsSp_cons, Bool.and_eq_true]
          exact ⟨by decide, ih⟩
      · have hcf : isSpace c = false := by simpa using hc
        rw [if_neg hc, allWsSp_cons, Bool.and_eq_true]
        constructor
        · rw [hcf]; rfl
        · exact ih

theorem noAdj_collapseRuns : ∀ l, noAdj (collapseRuns l) = true := by
  intro l
  induction l with
  | nil => rfl
  | cons c t ih =>
    cases t with
    | nil =>
      rw [collapseRuns_one]
      by_cases h : isSpace c = true
      · rw [if_pos h]; rfl
      · rw [if_neg h]; rfl
    | cons b t2 =>
      obtain ⟨y, ys, hy, hsp, _⟩ := collapseRuns_cons_head t2 b
      have ih2 := ih
      rw [hy] at ih2
      rw [collapseRuns_cons2]
      by_cases hc : isSpace c = true
      · by_cases hb : isSpace b = true
        · rw [if_pos hc, if_pos hb]; exact ih
        · have hbf : isSpace b = false := by simpa using hb
          rw [if_pos hc, if_neg hb, hy, noAdj_cons2, Bool.and_eq_true]
          constructor
          · rw [hsp, hbf]; decide
          · exact ih2
      · have hcf : isSpace c = false := by simpa using hc
        rw [if_neg hc, hy, noAdj_cons2, Bool.and_eq_true]
        constructor
        · rw [hcf]; rfl
        · exact ih2

theorem collapseRuns_fixed : ∀ l, allWsSp l = true → noAdj l = true → collapseRuns l = l := by
  intro l
  induction l with
  | nil => intro _ _; rfl
  | cons c t ih =>
    intro hall hadj
    cases t with
    | nil =>
      rw [allWsSp_cons, Bool.and_eq_true] at hall
      rw [collapseRuns_one]
      by_cases h : isSpace c = true
      · rw [if_pos h, eq_space_of_wsSp h hall.1]
      · rw [if_neg h]
    | cons b t2 =>
      rw [allWsSp_cons, Bool.and_eq_true] at hall
      rw [noAdj_cons2, Bool.and_eq_true] at hadj
      have hrest : collapseRuns (b :: t2) = b :: t2 := ih hall.2 hadj.2
      rw [collapseRuns_cons2]
      by_cases hc : isSpace c = true
      · have hb : isSpace b = false := by
          have hx := hadj.1
          rw [hc] at hx
          simpa using hx
        have hbn : ¬ isSpace b = true := by rw [hb]; exact Bool.false_ne_true
        rw [if_pos hc, if_neg hbn, hrest, eq_space_of_wsSp hc hall.1]
      · rw [if_neg hc, hrest]

theorem rstripL_cons (c : Char) (cs : List Char) :
    rstripL (c :: cs) =
      if (rstripL cs).isEmpty then (if isSpace c then [] else [c]) else c :: rstripL cs := rfl

theorem noLeadWs_cons (c : Char) (t : List Char) : noLeadWs (c :: t) = !(isSpace c) := rfl

theorem stripL_eq (l : List Char) : stripL l = rstripL (l.dropWhile isSpace) := rfl

theorem noAdj_tail (c : Char) (l : List Char) (h : noAdj (c :: l) = true) : noAdj l = true := by
  cases l with
  | nil => rfl
  | cons b t =>
    rw [noAdj_cons2, Bool.and_eq_true] at h
    exact h.2

theorem allWsSp_dropWhile : ∀ l, allWsSp l = true → allWsSp (l.dropWhile isSpace) = true := by
  intro l
  induction l with
  | nil => intro _; rfl
  | cons c t ih =>
    intro h
    rw [allWsSp_cons, Bool.and_eq_true] at h
    rw [List.dropWhile_cons]
    by_cases hc : isSpace c = true
    · rw [if_pos hc]; exact ih h.2
    · rw [if_neg hc, allWsSp_cons, Bool.and_eq_true]; exact h

theorem noAdj_dropWhile : ∀ l, noAdj l = true → noAdj (l.dropWhile isSpace) = true := by
  intro l
  induction l with
  | nil => intro _; rfl
  | cons c t ih =>
    intro h
    rw [List.dropWhile_cons]
    by_cases hc : isSpace c = true
    · rw [if_pos hc]; exact ih (noAdj_tail c t h)
    · rw [if_neg hc]; exact h

theorem noLead_dropWhile : ∀ (l : List Char), noLeadWs (l.dropWhile isSpace) = true := by
  intro l
  induction l with
  | nil => rfl
  | cons c t ih =>
    rw [List.dropWhile_cons]
    by_cases hc : isSpace c = true
    · rw [if_pos hc]; exact ih
    · have hcf : isSpace c = false := by simpa using hc
      rw [if_neg hc, noLeadWs_cons, hcf]
      rfl

theorem rstripL_head (cs : List Char) (c : Char) :
    rstripL (c :: cs) = [] ∨ ∃ ys, rstripL (c :: cs) = c :: ys := by
  rw [rstripL_cons]
  by_cases he : (rstripL cs).isEmpty = true
  · rw [if_pos he]
    by_cases hc : isSpace c = true
    · left; rw [if_pos hc]
    · right; exact ⟨[], by rw [if_neg hc]⟩
  · right; exact ⟨rstripL cs, by rw [if_neg he]⟩

theorem allWsSp_rstripL : ∀ l, allWsSp l = true → allWsSp (rstripL l) = true := by
  intro l
  induction l with
  | nil => intro _; rfl
  | cons c cs ih =>
    intro h
    rw [allWsSp_cons, Bool.and_eq_true] at h
    rw [rstripL_cons]
    by_cases he : (rstripL cs).isEmpty = true
    · rw [if_pos he]
      by_cases hc : isSpace c = true
      · rw [if_pos hc]; rfl
      · rw [if_neg hc, allWsSp_cons, Bool.and_eq_true]
        exact ⟨h.1, rfl⟩
    · rw [if_neg he, allWsSp_cons, Bool.and_eq_true]
      exact ⟨h.1, ih h.2⟩

theorem noAdj_rstripL : ∀ l, noAdj l = true → noAdj (rstripL l) = true := by
  intro l
  induction l with
  | nil => intro _; rfl
  | cons c cs ih =>
    intro h
    rw [rstripL_cons]
    by_cases he : (rstripL cs).isEmpty = true
    · rw [if_pos he]
      by_cases hc : isSpace c = true
      · rw [if_pos hc]; rfl
      · rw [if_neg hc]; rfl
    · rw [if_neg he]
      cases cs with
      | nil => simp [rstripL] at he
      | cons b t =>
        rcases rstripL_head t b with h0 | ⟨ys, hy⟩
        · rw [h0] at he; simp at he
        · have hih := ih (noAdj_tail c (b :: t) h)
          rw [hy] at hih
          rw [hy, noAdj_cons2, Bool.and_eq_true]
          constructor
          · rw [noAdj_cons2, Bool.and_eq_true] at h
            exact h.1
          · exact hih

theorem noTrail_rstripL : ∀ l, noTrailWs (rstripL l) = true := by
  intro l
  induction l with
  | nil => rfl
  | cons c cs ih =>
    rw [rstripL_cons]
    by_cases he : (rstripL cs).isEmpty = true
    · rw [if_pos he]
      by_cases hc : isSpace c = true
      · rw [if_pos hc]; rfl
      · have hcf : isSpace c = false := by simpa using hc
        rw [if_neg hc, show noTrailWs [c] = !(isSpace c) from rfl, hcf]
        rfl
    · rw [if_neg he]
      cases hr : rstripL cs with
      | nil => rw [hr] at he; simp at he
      | cons y ys =>
        rw [show noTrailWs (c :: y :: ys) = noTrailWs (y :: ys) from rfl]
        have hih := ih
        rw [hr] at hih
        exact hih

theorem noLead_rstripL : ∀ l, noLeadWs l = true → noLeadWs (rstripL l) = true := by
  intro l
  cases l with
  | nil => intro _; rfl
  | cons c cs =>
    intro h
    rw [rstripL_cons]
    by_cases he : (rstripL cs).isEmpty = true
    · rw [if_pos he]
      by_cases hc : isSpace c = true
      · rw [if_pos hc]; rfl
      · rw [if_neg hc]; exact h
    · rw [if_neg he]; exact h

theorem dropWhile_noLead : ∀ l, noLeadWs l = true → l.dropWhile isSpace = l := by
  intro l
  cases l with
  | nil => intro _; rfl
  | cons c cs =>
    intro h
    rw [noLeadWs_cons] at h
    have hcf : isSpace c = false := by simpa using h
    rw [List.dropWhile_cons, if_neg (by rw [hcf]; exact Bool.false_ne_true)]

theorem rstripL_noTrail : ∀ l, noTrailWs l = true → rstripL l = l := by
  intro l
  induction l with
  | nil => intro _; rfl
  | cons c cs ih =>
    intro h
    cases cs with
    | nil =>
      have hcf : isSpace c = false := by
        rw [show noTrailWs [c] = !(isSpace c) from rfl] at h
        simpa using h
      rw [rstripL_cons,
        if_pos (show (rstripL ([] : List Char)).isEmpty = true from rfl),
        if_neg (by rw [hcf]; exact Bool.false_ne_true)]
    | cons b t =>
      have htail : noTrailWs (b :: t) = true := h
      have hr : rstripL (b :: t) = b :: t := ih htail
      rw [rstripL_cons, hr, if_neg (by simp)]

/-- Claim C8: the corpus whitespace normalization of line 78 (collapse
every maximal whitespace run to one space, then strip) is idempotent. -/
theorem c8_collapse_ws_idempotent (s : String) : collapse_ws (collapse_ws s) = collapse_ws s := by
  show String.mk (stripL (collapseRuns (stripL (collapseRuns s.data)))) =
    String.mk (stripL (collapseRuns s.data))
  have hA1 : allWsSp (collapseRuns s.data) = true := allWsSp_collapseRuns _
  have hA2 : noAdj (collapseRuns s.data) = true := noAdj_collapseRuns _
  have hr1 : allWsSp (stripL (collapseRuns s.data)) = true := by
    rw [stripL_eq]
    exact allWsSp_rstripL _ (allWsSp_dropWhile _ hA1)
  have hr2 : noAdj (stripL (collapseRuns s.data)) = true := by
    rw [stripL_eq]
    exact noAdj_rstripL _ (noAdj_dropWhile _ hA2)
  have hr3 : noLeadWs (stripL (collapseRuns s.data)) = true := by
    rw [stripL_eq]
    exact noLead_rstripL _ (noLead_dropWhile _)
  have hr4 : noTrailWs (stripL (collapseRuns s.data)) = true := by
    rw [stripL_eq]
    exact noTrail_rstripL _
  apply congrArg
  rw [collapseRuns_fixed _ hr1 hr2, stripL_eq, dropWhile_noLead _ hr3, rstripL_noTrail _ hr4]

/-! ### Corpus building and the request handler -/

theorem extract_loop_spec (st : Storage) (ex : Extractors) (tmpName : String → String)
    (f : String → String) :
    ∀ (paths : List String) (acc : String),
    (∀ p ∈ paths, extract_one_path st ex tmpName p = Except.ok (f p)) →
    extract_loop st ex tmpName paths acc =
      Except.ok (collapse_ws (paths.foldl (fun all_text p => all_text ++ f p ++ "\n") acc)) := by
  intro paths
  induction paths with
  | nil => intro acc _; rfl
  | cons p ps ih =>
    intro acc h
    have hp : extract_one_path st ex tmpName p = Except.ok (f p) :=
      h p (List.mem_cons_self p ps)
    simp only [extract_loop, hp, List.foldl_cons]
    exact ih (acc ++ f p ++ "\n") (fun q hq => h q (List.mem_cons_of_mem p hq))

/-- Claim C5: when every path extracts successfully, the corpus is built by
walking `file_paths` in the given order, appending each file's extracted
text plus a newline to the accumulator, and finally collapsing whitespace;
so the document texts appear in exactly the order of `file_paths`. -/
theorem c5_corpus_in_order (st : Storage) (ex : Extractors) (tmpName : String → String)
    (file_paths : List String) (f : String → String)
    (h : ∀ p ∈ file_paths, extract_one_path st ex tmpName p = Except.ok (f p)) :
    extract_text_from_supabase_paths st ex tmpName file_paths =
      Except.ok (collapse_ws (file_paths.foldl (fun all_text p => all_text ++ f p ++ "\n") "")) :=
  extract_loop_spec st ex tmpName f file_paths "" h

/-- Witness for C5: two files with distinguishable marker text come out in
request order. -/
theorem c5_witness :
    (∀ p ∈ ["a.pdf", "b.docx"], extract_one_path stDemo exDemo tmpDemo p = Except.ok (fDemo p)) ∧
    extract_text_from_supabase_paths stDemo exDemo tmpDemo ["a.pdf", "b.docx"] =
      Except.ok (collapse_ws ((["a.pdf", "b.docx"]).foldl
        (fun all_text p => all_text ++ fDemo p ++ "\n") "")) := by
  have hf : ∀ p ∈ ["a.pdf", "b.docx"],
      extract_one_path stDemo exDemo tmpDemo p = Except.ok (fDemo p) := by
    intro p hp
    cases hp with
    | head => rfl
    | tail _ hp2 =>
      cases hp2 with
      | head => rfl
      | tail _ hp3 => cases hp3
  exact ⟨hf, c5_corpus_in_order stDemo exDemo tmpDemo ["a.pdf", "b.docx"] fDemo hf⟩

/-- Claim C9: a file path whose name ends in none of `.pdf`, `.docx`,
`.pptx` makes `extract_text` return the empty string without invoking (or
failing in) any parser. -/
theorem c9_unknown_suffix_yields_empty (ex : Extractors) (file_path : String) (contents : Bytes)
    (h1 : pyEndswith file_path ".pdf" = false)
    (h2 : pyEndswith file_path ".docx" = false)
    (h3 : pyEndswith file_path ".pptx" = false) :
    extract_text ex file_path contents = Except.ok "" := by
  unfold extract_text
  rw [h1, h2, h3]
  simp

/-- Witness for C9 at the path `notes.txt`. -/
theorem c9_witness :
    pyEndswith "notes.txt" ".pdf" = false ∧ pyEndswith "notes.txt" ".docx" = false ∧
    pyEndswith "notes.txt" ".pptx" = false ∧
    extract_text exDemo "notes.txt" [] = Except.ok "" :=
  ⟨rfl, rfl, rfl, c9_unknown_suffix_yields_empty exDemo "notes.txt" [] rfl rfl rfl⟩

/-- Claim C2: when the built corpus strips to the empty string, the
handler answers 200 with `success: true` and an empty `results` mapping,
and the trace of prompts sent to the generation client is empty. -/
theorem c2_empty_corpus_skips_generation (st : Storage) (ex : Extractors)
    (tmpName : String → String) (gen : GenModel) (data : GenRequest) (qc : Int) (t : String)
    (h1 : pyInt data.question_count = Except.ok qc)
    (h2 : extract_text_from_supabase_paths st ex tmpName data.file_paths = Except.ok t)
    (h3 : pyStrip t = "") :
    generate_learning_content st ex tmpName gen data =
      ((200, successBody data.project_name []), []) := by
  simp [generate_learning_content, handlerBody, h1, h2, h3]

/-- Witness for C2: the all-defaults request with `file_paths = []`. -/
theorem c2_witness :
    pyInt reqEmpty.question_count = Except.ok 5 ∧
    extract_text_from_supabase_paths stDemo exDemo tmpDemo reqEmpty.file_paths = Except.ok "" ∧
    pyStrip "" = "" ∧
    generate_learning_content stDemo exDemo tmpDemo genDemo reqEmpty =
      ((200, successBody reqEmpty.project_name []), []) :=
  ⟨rfl, rfl, rfl,
    c2_empty_corpus_skips_generation stDemo exDemo tmpDemo genDemo reqEmpty 5 "" rfl rfl rfl⟩

/-- Claim C3: whatever exception the handler body raises (storage,
extraction, generation, or request parsing), the endpoint responds 500
with the one generic failure payload and reports no partial results. -/
theorem c3_exception_yields_generic_500 (st : Storage) (ex : Extractors)
    (tmpName : String → String) (gen : GenModel) (data : GenRequest) (e : String)
    (h : handlerBody st ex tmpName gen data = Except.error e) :
    generate_learning_content st ex tmpName gen data = ((500, failureBody), []) := by
  unfold generate_learning_content
  rw [h]

/-- Witness for C3: a generation-service failure on a summary request. -/
theorem c3_witness :
    handlerBody stDemo exDemo tmpDemo genFail reqSummary = Except.error "quota exhausted" ∧
    generate_learning_content stDemo exDemo tmpDemo genFail reqSummary = ((500, failureBody), []) :=
  ⟨rfl, c3_exception_yields_generic_500 stDemo exDemo tmpDemo genFail reqSummary "quota exhausted" rfl⟩

theorem containsL_append_left (p : List Char) : ∀ (a t : List Char),
    containsL p t = true → containsL p (a ++ t) = true := by
  intro a
  induction a with
  | nil => intro t h; simpa using h
  | cons c cs ih =>
    intro t h
    simp only [List.cons_append, containsL, Bool.or_eq_true]
    exact Or.inr (ih t h)

theorem containsL_self_append (p b : List Char) : containsL p (p ++ b) = true := by
  simpa using containsL_middle p [] b

/-- Claim C6: with non-empty corpus and `actions = ["summary"]`, the
results mapping holds exactly the one key `summary`, and exactly one
prompt (the summary prompt) is sent. -/
theorem c6_summary_only (st : Storage) (ex : Extractors) (tmpName : String → String)
    (gen : GenModel) (data : GenRequest) (qc : Int) (t r : String)
    (ha : data.actions = ["summary"])
    (h1 : pyInt data.question_count = Except.ok qc)
    (h2 : extract_text_from_supabase_paths st ex tmpName data.file_paths = Except.ok t)
    (h3 : pyStrip t ≠ "")
    (h4 : gen (summary_prompt t) = Except.ok r) :
    generate_learning_content st ex tmpName gen data =
      ((200, successBody data.project_name [("summary", some r)]), [summary_prompt t]) := by
  have hs : (["summary"] : List String).contains "summary" = true := rfl
  have hqz : (["summary"] : List String).contains "quiz" = false := rfl
  have hfl : (["summary"] : List String).contains "flashcards" = false := rfl
  simp [generate_learning_content, handlerBody, h1, h2, h3, ha, hs, hqz, hfl, runAction,
    generate_ai_response, prompt_for, h4]

/-- Witness for C6: one PDF, summary only. -/
theorem c6_witness :
    reqSummary.actions = ["summary"] ∧
    pyInt reqSummary.question_count = Except.ok 5 ∧
    extract_text_from_supabase_paths stDemo exDemo tmpDemo reqSummary.file_paths =
      Except.ok "PDF:a.pdf" ∧
    pyStrip "PDF:a.pdf" ≠ "" ∧
    genDemo (summary_prompt "PDF:a.pdf") = Except.ok "GEN" ∧
    generate_learning_content stDemo exDemo tmpDemo genDemo reqSummary =
      ((200, successBody reqSummary.project_name [("summary", some "GEN")]),
        [summary_prompt "PDF:a.pdf"]) :=
  ⟨rfl, rfl, rfl, by decide, rfl,
    c6_summary_only stDemo exDemo tmpDemo genDemo reqSummary 5 "PDF:a.pdf" "GEN"
      rfl rfl rfl (by decide) rfl⟩

/-- Counterexample to claim C1: with `question_count = 7` and action
`flashcards`, the one prompt sent to the generation client is the
flashcards prompt built with the constant 5, and it does not even contain
the digit string `"7"` — so the flashcards prompt does not embed the
caller-supplied `question_count`. -/
theorem c1_counterexample :
    pyInt reqFlash7.question_count = Except.ok 7 ∧
    (generate_learning_content stDemo exDemo tmpDemo genDemo reqFlash7).2 =
      [flashcards_prompt 5 "PDF:a.pdf"] ∧
    strContains (flashcards_prompt 5 "PDF:a.pdf") (toString (7 : Int)) = false :=
  ⟨rfl, rfl, by decide⟩

/-- Claim C1 (amended): the handler never passes `question_count` to the
flashcards generation; whenever `flashcards` is among the actions and the
corpus is non-empty, the flashcards prompt sent is the one built with the
function's default count 5, regardless of the request's question_count. -/
theorem c1_flashcards_prompt_uses_default_count (st : Storage) (ex : Extractors)
    (tmpName : String → String) (gen : GenModel) (g : String → String) (data : GenRequest)
    (qc : Int) (t : String)
    (hg : ∀ p, gen p = Except.ok (g p))
    (h1 : pyInt data.question_count = Except.ok qc)
    (h2 : extract_text_from_supabase_paths st ex tmpName data.file_paths = Except.ok t)
    (h3 : pyStrip t ≠ "")
    (hf : data.actions.contains "flashcards" = true) :
    flashcards_prompt 5 t ∈ (generate_learning_content st ex tmpName gen data).2 := by
  have hf2 : "flashcards" ∈ data.actions := by simpa using hf
  by_cases hs2 : "summary" ∈ data.actions <;>
  by_cases hq2 : "quiz" ∈ data.actions <;>
    simp [generate_learning_content, handlerBody, h1, h2, h3, hs2, hq2, hf2, runAction,
      generate_ai_response, prompt_for, hg]

/-- Witness for the amended C1 at the concrete flashcards request. -/
theorem c1_witness :
    (∀ p, genDemo p = Except.ok "GEN") ∧
    pyInt reqFlash7.question_count = Except.ok 7 ∧
    extract_text_from_supabase_paths stDemo exDemo tmpDemo reqFlash7.file_paths =
      Except.ok "PDF:a.pdf" ∧
    pyStrip "PDF:a.pdf" ≠ "" ∧
    reqFlash7.actions.contains "flashcards" = true ∧
    flashcards_prompt 5 "PDF:a.pdf" ∈
      (generate_learning_content stDemo exDemo tmpDemo genDemo reqFlash7).2 :=
  ⟨fun _ => rfl, rfl, rfl, by decide, rfl,
    c1_flashcards_prompt_uses_default_count stDemo exDemo tmpDemo genDemo (fun _ => "GEN")
      reqFlash7 7 "PDF:a.pdf" (fun _ => rfl) rfl rfl (by decide) rfl⟩

theorem handlerBody_ok_shape (st : Storage) (ex : Extractors) (tmpName : String → String)
    (gen : GenModel) (data : GenRequest) (body : JVal) (ps : List String)
    (h : handlerBody st ex tmpName gen data = Except.ok (body, ps)) :
    ∃ results, body = successBody data.project_name results := by
  unfold handlerBody at h
  split at h
  · simp at h
  · split at h
    · simp at h
    · split at h
      · injection h with h2
        exact ⟨[], (congrArg Prod.fst h2).symm⟩
      · split at h
        · simp at h
        · split at h
          · simp at h
          · split at h
            · simp at h
            · injection h with h2
              exact ⟨_, (congrArg Prod.fst h2).symm⟩

/-- Counterexample to claim C4: on the failure path the response body has
only the fields `success` and `error` — neither `project_name` nor
`results` is present. -/
theorem c4_counterexample :
    (generate_learning_content stDemo exDemo tmpDemo genDemo reqBadCount).1.1 = 500 ∧
    fieldKeys (generate_learning_content stDemo exDemo tmpDemo genDemo reqBadCount).1.2 =
      ["success", "error"] ∧
    "project_name" ∉
      fieldKeys (generate_learning_content stDemo exDemo tmpDemo genDemo reqBadCount).1.2 ∧
    "results" ∉
      fieldKeys (generate_learning_content stDemo exDemo tmpDemo genDemo reqBadCount).1.2 :=
  ⟨rfl, rfl, by decide, by decide⟩

/-- Claim C4 (amended): a 200 response carries exactly the fields
`success`, `project_name`, `results`; a 500 response carries exactly
`success` and `error` — so `project_name` and `results` are present only
on the success path. -/
theorem c4_response_fields (st : Storage) (ex : Extractors) (tmpName : String → String)
    (gen : GenModel) (data : GenRequest) :
    ((generate_learning_content st ex tmpName gen data).1.1 = 200 ∧
      fieldKeys (generate_learning_content st ex tmpName gen data).1.2 =
        ["success", "project_name", "results"]) ∨
    ((generate_learning_content st ex tmpName gen data).1.1 = 500 ∧
      fieldKeys (generate_learning_content st ex tmpName gen data).1.2 =
        ["success", "error"]) := by
  unfold generate_learning_content
  cases hb : handlerBody st ex tmpName gen data with
  | ok bp =>
    left
    obtain ⟨results, hbody⟩ :=
      handlerBody_ok_shape st ex tmpName gen data bp.1 bp.2 (by rw [hb])
    constructor
    · rfl
    · show fieldKeys bp.1 = _
      rw [hbody]
      rfl
  | error e => exact Or.inr ⟨rfl, rfl⟩

/-- Claim C10: the handler validates neither `difficulty` nor
`question_count` — any integer (zero, negative) and any difficulty string
are embedded verbatim into the quiz prompt of a 200 response — while a
`question_count` that `int(...)` cannot convert makes the whole request
fail with the generic 500 response. -/
theorem c10_no_domain_validation (st : Storage) (ex : Extractors) (tmpName : String → String)
    (gen : GenModel) (g : String → String) (data : GenRequest) (n : Int) (t : String)
    (hq : data.question_count = PyVal.pint n)
    (hg : ∀ p, gen p = Except.ok (g p))
    (h2 : extract_text_from_supabase_paths st ex tmpName data.file_paths = Except.ok t)
    (h3 : pyStrip t ≠ "")
    (hz : data.actions.contains "quiz" = true) :
    ((generate_learning_content st ex tmpName gen data).1.1 = 200 ∧
      quiz_prompt n data.difficulty t ∈ (generate_learning_content st ex tmpName gen data).2 ∧
      strContains (quiz_prompt n data.difficulty t) (toString n) = true ∧
      strContains (quiz_prompt n data.difficulty t) data.difficulty = true) ∧
    ∀ (bad : GenRequest) (e : String), pyInt bad.question_count = Except.error e →
      generate_learning_content st ex tmpName gen bad = ((500, failureBody), []) := by
  constructor
  · have h1 : pyInt data.question_count = Except.ok n := by
      rw [hq]
      rfl
    have hz2 : "quiz" ∈ data.actions := by simpa using hz
    have hmain : (generate_learning_content st ex tmpName gen data).1.1 = 200 ∧
        quiz_prompt n data.difficulty t ∈
          (generate_learning_content st ex tmpName gen data).2 := by
      by_cases hs2 : "summary" ∈ data.actions <;>
      by_cases hf2 : "flashcards" ∈ data.actions <;>
        simp [generate_learning_content, handlerBody, h1, h2, h3, hs2, hf2, hz2, runAction,
          generate_ai_response, prompt_for, hg]
    refine ⟨hmain.1, hmain.2, ?_, ?_⟩
    · show containsL (toString n).data (quiz_prompt n data.difficulty t).data = true
      simp only [quiz_prompt, quiz_prompt_header, strData_append, List.append_assoc]
      exact containsL_append_left _ _ _ (containsL_self_append _ _)
    · show containsL data.difficulty.data (quiz_prompt n data.difficulty t).data = true
      simp only [quiz_prompt, quiz_prompt_header, strData_append, List.append_assoc]
      exact containsL_append_left _ _ _ (containsL_append_left _ _ _
        (containsL_append_left _ _ _ (containsL_self_append _ _)))
  · intro bad e hbad
    simp [generate_learning_content, handlerBody, hbad]

/-- Witness for C10: a quiz request with `question_count = -2` and
difficulty `"weird"`, plus a request whose count string `"abc"` fails
conversion. -/
theorem c10_witness :
    reqQuizNeg.question_count = PyVal.pint (-2) ∧
    (∀ p, genDemo p = Except.ok "GEN") ∧
    extract_text_from_supabase_paths stDemo exDemo tmpDemo reqQuizNeg.file_paths =
      Except.ok "PDF:a.pdf" ∧
    pyStrip "PDF:a.pdf" ≠ "" ∧
    reqQuizNeg.actions.contains "quiz" = true ∧
    ((((generate_learning_content stDemo exDemo tmpDemo genDemo reqQuizNeg).1.1 = 200 ∧
      quiz_prompt (-2) reqQuizNeg.difficulty "PDF:a.pdf" ∈
        (generate_learning_content stDemo exDemo tmpDemo genDemo reqQuizNeg).2 ∧
      strContains (quiz_prompt (-2) reqQuizNeg.difficulty "PDF:a.pdf") (toString (-2 : Int)) = true ∧
      strContains (quiz_prompt (-2) reqQuizNeg.difficulty "PDF:a.pdf") reqQuizNeg.difficulty = true) ∧
    ∀ (bad : GenRequest) (e : String), pyInt bad.question_count = Except.error e →
      generate_learning_content stDemo exDemo tmpDemo genDemo bad = ((500, failureBody), []))) :=
  ⟨rfl, fun _ => rfl, rfl, by decide, rfl,
    c10_no_domain_validation stDemo exDemo tmpDemo genDemo (fun _ => "GEN") reqQuizNeg (-2)
      "PDF:a.pdf" rfl (fun _ => rfl) rfl (by decide) rfl⟩
